import Mathlib

/-!
# Verification of the transmutedb entity pipeline

A shallow embedding of `src/transmutedb/flow/entity_builder.py`: the bronze
(landing) loader, the silver (typed/validated) processor, and the gold
historized Type-2 dimension merge engine, together with proofs about their
behaviour.

Modelling conventions:
* SQL `NULL` values are `Option.none`; SQL three-valued comparison semantics
  are preserved (`NULL = x` and `NULL != x` are never true).
* SHA-256 digests are modelled by their preimages: the code only ever compares
  digests for equality and relies on collision-freedom, so digest equality
  corresponds to preimage equality.
* Timestamps (`CURRENT_TIMESTAMP`, `_load_date`, `_valid_from`) are `Nat`
  parameters passed by the caller.
* Each `con.execute` statement is one state transition; DuckDB runs them with
  autocommit (the source opens no transaction), so intermediate states after
  each statement are observable.
* The metadata-catalog lookup (`entity_metadata` / `entity_column_metadata`)
  is modelled by passing the entity's registered column list directly; the
  `ORDER BY column_id` registration order is the list order.
-/

namespace TransmuteDb

/-! ## Identifier and type validation (`_validate_identifier`, silver type regex) -/

/-- `[a-zA-Z_]` : legal first character of a SQL identifier. -/
def isIdentStart (c : Char) : Bool :=
  c.isAlpha || c == '_'

/-- `[a-zA-Z0-9_]` : legal later character of a SQL identifier. -/
def isIdentChar (c : Char) : Bool :=
  c.isAlpha || c.isDigit || c == '_'

/-- The anchored character-class language `[a-zA-Z_][a-zA-Z0-9_]*` itself. -/
def matchesIdentCore (cs : List Char) : Bool :=
  match cs with
  | [] => false
  | c :: rest => isIdentStart c && rest.all isIdentChar

/-- The regex check `re.match(r'^[a-zA-Z_][a-zA-Z0-9_]*$', identifier)` from
`_validate_identifier`. Python's `$` also matches just before a single
newline at the very end of the string, so the accepted language is the
character-class pattern optionally followed by one trailing newline
(`"abc\n"` is accepted). -/
def matchesIdentPattern (s : String) : Bool :=
  matchesIdentCore s.toList ||
    (match s.toList.getLast? with
     | some c => c == '\n' && matchesIdentCore s.toList.dropLast
     | none => false)

/-- `_validate_identifier`: regex match plus the 63-character limit (the
length counts every character, a trailing newline included). `true` means
the identifier is accepted; the source raises `ValueError` otherwise, before
any statement using the identifier is built. -/
def validateIdentifier (s : String) : Bool :=
  matchesIdentPattern s && s.length ≤ 63

/-- Modelled from the spec: the identifier rule the specification prescribes
— a full anchored match of `[A-Za-z_][A-Za-z0-9_]*` with length at most 63
and no trailing-newline allowance. Used only to compare the source's check
against the claimed pattern. -/
def claimedIdentCheck (s : String) : Bool :=
  matchesIdentCore s.toList && s.length ≤ 63

/-- `[0-9,\s]` : characters allowed inside the parenthesized parameter part of
a declared column type. -/
def isTypeParamChar (c : Char) : Bool :=
  c.isDigit || c == ',' || c == ' ' || c == '\t' || c == '\n' || c == '\r'

/-- Whitespace as trimmed by `.strip()`. -/
def isSpaceChar (c : Char) : Bool :=
  c == ' ' || c == '\t' || c == '\n' || c == '\r'

/-- `data_type.upper().strip()` as a character list. -/
def upperTrimChars (s : String) : List Char :=
  (((s.toList.map Char.toUpper).dropWhile isSpaceChar).reverse.dropWhile
    isSpaceChar).reverse

/-- The data-type check in `process_silver_entity`:
`re.match(r'^[A-Z]+(\([0-9,\s]+\))?$', data_type.upper().strip())` —
a word of letters optionally followed by parenthesized numeric parameters. -/
def isValidTypeDecl (dt : String) : Bool :=
  let cs := upperTrimChars dt
  let letters := cs.takeWhile Char.isUpper
  let rest := cs.drop letters.length
  (!letters.isEmpty) &&
    (rest.isEmpty ||
      (match rest with
       | '(' :: mid =>
         match mid.reverse with
         | ')' :: innerRev => (!innerRev.isEmpty) && innerRev.all isTypeParamChar
         | _ => false
       | _ => false))

/-! ## Data model -/

/-- One row of `entity_column_metadata` for an entity, in registration
(`column_id`) order. -/
structure ColumnMeta where
  name : String
  dataType : String
  isNullable : Bool := true
  isBusinessKey : Bool := false
  trackHistory : Bool := false
deriving Repr, DecidableEq

/-- A row of the bronze (landing) table: the submitted values aligned with the
entity's registered columns, plus the audit columns `_load_date` and
`_row_hash`. -/
structure BronzeRow where
  vals : List (Option String)
  loadDate : Nat
  rowHash : Option String
deriving Repr, DecidableEq

/-- A row of the silver (typed) table: coerced values aligned with the
registered columns, plus `_load_date`, `_row_hash`, `_valid_from`, `_is_valid`. -/
structure SilverRow where
  vals : List (Option String)
  loadDate : Nat
  rowHash : Option String
  validFrom : Nat
  isValid : Bool
deriving Repr, DecidableEq

/-- A row of the gold historized (Type-2 dimension) table: surrogate key,
declared column values, validity window, current flag, audit columns. -/
structure GoldRow where
  key : Nat
  vals : List (Option String)
  validFrom : Nat
  validTo : Option Nat
  isCurrent : Bool
  loadDate : Nat
  rowHash : Option String
deriving Repr, DecidableEq

/-- The historized table together with its surrogate-key sequence.
`tableSchema` records the `(column name, declared type)` pairs interpolated
into the `CREATE TABLE` statement; `seq` is the next value `nextval` returns. -/
structure GoldState where
  tableSchema : List (String × String)
  rows : List GoldRow
  seq : Nat
deriving Repr, DecidableEq

/-- The storage-engine state visible to the merge engine: which schemas exist
and whether the entity's historized table (with its sequence) exists. -/
structure DB where
  schemas : List String
  gold : Option GoldState
deriving Repr, DecidableEq

/-- The result dictionary of `build_type2_dimension`. The initial-load branch
has no `changed_rows` entry; it is modelled as `0` there. -/
structure MergeResult where
  total_rows : Nat
  new_rows : Nat
  updated_rows : Nat
  changed_rows : Nat
deriving Repr, DecidableEq

/-! ## SQL value semantics -/

/-- SQL equality `a = b`: true only when both sides are non-NULL and equal. -/
def sqlEq (a b : Option String) : Bool :=
  match a, b with
  | some x, some y => x == y
  | _, _ => false

/-- SQL inequality `a != b`: true only when both sides are non-NULL and
different (a comparison with NULL is unknown, hence filtered out). -/
def sqlNeq (a b : Option String) : Bool :=
  match a, b with
  | some x, some y => x != y
  | _, _ => false

/-- Projection of a row's values onto the business-key columns, in
registration order (`vals` is positionally aligned with `cols`). -/
def bkVals (cols : List ColumnMeta) (vals : List (Option String)) : List (Option String) :=
  (cols.zip vals).filterMap (fun p => if p.1.isBusinessKey then some p.2 else none)

/-- Conjunction of SQL equalities over two aligned value lists (the generated
join condition is one `AND`-ed equality per business-key column; lists of
different length never match). -/
def sqlListEq : List (Option String) → List (Option String) → Bool
  | [], [] => true
  | a :: as, b :: bs => sqlEq a b && sqlListEq as bs
  | _, _ => false

/-- The generated join condition `dim.k1 = src.k1 AND ... AND dim.kn = src.kn`
over the business-key columns, with SQL NULL semantics on each conjunct. -/
def bkJoin (cols : List ColumnMeta) (gv sv : List (Option String)) : Bool :=
  sqlListEq (bkVals cols gv) (bkVals cols sv)

/-! ## Bronze tier: `load_bronze_entity` -/

/-- A rectangular input row-set: column names and rows of (non-NULL) values,
each row aligned with `cols`. -/
structure DataFrame where
  cols : List String
  rows : List (List String)
deriving Repr, DecidableEq

/-- The content-hash preimage: `pl.concat_str(original_columns, separator="|")`.
The SHA-256 digest applied afterwards is modelled by this preimage. -/
def contentHash (vals : List String) : String :=
  String.intercalate "|" vals

/-- `load_bronze_entity`: stamps each submitted row with `_load_date` and a
`_row_hash` over the *submitted frame's own columns* (`source_data.columns`),
captured before the audit columns are appended. Identifiers are validated
before any statement is executed. -/
def load_bronze_entity (entityName bronzeSchema : String) (df : DataFrame)
    (loadDate : Nat) : Except String (List BronzeRow) :=
  let rows := df.rows.map (fun r =>
    { vals := r.map some, loadDate := loadDate,
      rowHash := some (contentHash r) : BronzeRow })
  if !(validateIdentifier entityName && validateIdentifier bronzeSchema) then
    .error "invalid identifier"
  else
    .ok rows

/-- Modelled from the spec: the content hash the specification prescribes for
a Landing Record — concatenation of the row's original values *in catalog
column order* (the registration order of the entity's columns), with the same
fixed separator. Used only to compare against the hash the source computes. -/
def catalogOrderHash (catalogCols : List String) (df : DataFrame)
    (row : List String) : String :=
  contentHash (catalogCols.filterMap (fun c => (df.cols.zip row).lookup c))

/-! ## Silver tier: `process_silver_entity` -/

/-- The letters prefix of an (uppercased, trimmed) declared type:
`INTEGER` for `integer`, `DECIMAL` for `DECIMAL(10,2)`, … -/
def baseTypeOf (dt : String) : String :=
  String.mk ((upperTrimChars dt).takeWhile Char.isUpper)

/-- An integer literal as DuckDB accepts it for a cast. -/
def isIntLit (s : String) : Bool :=
  let t := ((s.toList.dropWhile isSpaceChar).reverse.dropWhile
    isSpaceChar).reverse
  let t2 := match t with
    | '-' :: rest => rest
    | _ => t
  (!t2.isEmpty) && t2.all Char.isDigit

/-- Models DuckDB `TRY_CAST(value AS type)` for the column types exercised
here: casting a non-numeric string to INTEGER yields NULL instead of raising;
NULL stays NULL; the remaining (string-like) types keep the value. -/
def tryCast (dt : String) (v : Option String) : Option String :=
  match v with
  | none => none
  | some s =>
    if baseTypeOf dt == "INTEGER" then
      (if isIntLit s then some s else none)
    else
      some s

/-- The `SELECT TRY_CAST(col AS type) AS col, ...` projection of one bronze
row through the declared columns. -/
def coerceRow (cols : List ColumnMeta) (vals : List (Option String)) :
    List (Option String) :=
  (cols.zip vals).map (fun p => tryCast p.1.dataType p.2)

/-- Whether a coerced row violates one of the `NOT NULL` constraints declared
in the silver `CREATE TABLE` (a non-nullable column whose value is NULL). -/
def violatesNotNull (cols : List ColumnMeta) (coerced : List (Option String)) : Bool :=
  (cols.zip coerced).any (fun p => !p.1.isNullable && p.2 == none)

/-- The statistics returned by `process_silver_entity`, plus the silver table
contents it leaves behind. -/
structure SilverResult where
  rows : List SilverRow
  totalRows : Nat
  validRows : Nat
  invalidRows : Nat
deriving Repr, DecidableEq

/-- `process_silver_entity`: validates identifiers and declared types, creates
the silver table whose non-nullable columns carry `NOT NULL` constraints, and
runs one `INSERT ... SELECT TRY_CAST(...), ..., TRUE AS _is_valid` from the
bronze table. The insert sets `_is_valid` to `TRUE` on every row; if any
coerced value is NULL in a `NOT NULL` column, DuckDB rejects the whole
statement, which the source propagates (modelled as `.error`), leaving no rows
inserted. `now` models `CURRENT_TIMESTAMP` for `_valid_from`. -/
def process_silver_entity (entityName bronzeSchema silverSchema : String)
    (cols : List ColumnMeta) (bronze : List BronzeRow) (now : Nat) :
    Except String SilverResult :=
  if !(validateIdentifier entityName && validateIdentifier bronzeSchema &&
      validateIdentifier silverSchema) then
    .error "invalid identifier"
  else if cols.isEmpty then
    .error "No column metadata found"
  else if !(cols.all fun c => validateIdentifier c.name && isValidTypeDecl c.dataType) then
    .error "invalid column name or data type"
  else if bronze.any (fun b => violatesNotNull cols (coerceRow cols b.vals)) then
    .error "NOT NULL constraint violated"
  else
    let rows := bronze.map (fun b =>
      { vals := coerceRow cols b.vals, loadDate := b.loadDate,
        rowHash := b.rowHash, validFrom := now, isValid := true : SilverRow })
    .ok { rows := rows,
          totalRows := rows.length,
          validRows := (rows.filter (fun r => r.isValid)).length,
          invalidRows := (rows.filter (fun r => !r.isValid)).length }

/-! ## Gold tier: `build_type2_dimension`, the historized dimension merge -/

/-- `dim._is_current = TRUE AND dim._row_hash != src._row_hash AND
src._is_valid = TRUE` joined on the business keys — the predicate shared by
the change-count query and the close statement, here as "this gold row has a
matching changed source row". -/
def srcChanged (cols : List ColumnMeta) (silver : List SilverRow) (g : GoldRow) : Bool :=
  g.isCurrent && silver.any (fun s =>
    bkJoin cols g.vals s.vals && sqlNeq g.rowHash s.rowHash && s.isValid)

/-- The `SELECT COUNT(*) FROM gold dim JOIN silver src ON ... WHERE ...`
change-count: SQL counts every (dim, src) join pair. -/
def updatedRowsCount (cols : List ColumnMeta) (gold : List GoldRow)
    (silver : List SilverRow) : Nat :=
  (gold.map (fun g => (silver.filter (fun s =>
    bkJoin cols g.vals s.vals && g.isCurrent &&
      sqlNeq g.rowHash s.rowHash && s.isValid)).length)).sum

/-- The `UPDATE gold dim SET _valid_to = CURRENT_TIMESTAMP, _is_current =
FALSE FROM silver src WHERE ...` close statement: a target row is updated
when at least one source row matches. -/
def closeStep (cols : List ColumnMeta) (silver : List SilverRow) (now : Nat)
    (gold : List GoldRow) : List GoldRow :=
  gold.map (fun g =>
    if srcChanged cols silver g then
      { g with validTo := some now, isCurrent := false }
    else g)

/-- The gold row built by the generated `INSERT ... SELECT nextval(...),
src.*, src._valid_from, NULL, TRUE, src._load_date, src._row_hash`. -/
def newVersion (s : SilverRow) (k : Nat) : GoldRow :=
  { key := k, vals := s.vals, validFrom := s.validFrom, validTo := none,
    isCurrent := true, loadDate := s.loadDate, rowHash := s.rowHash }

/-- Appends one gold row per selected silver row, drawing consecutive
surrogate keys from the sequence (`nextval` per selected row). -/
def appendRows : GoldState → List SilverRow → GoldState
  | st, [] => st
  | st, s :: rest =>
    appendRows
      { st with rows := st.rows ++ [newVersion s st.seq], seq := st.seq + 1 }
      rest

/-- The predicate of the "insert new versions of changed records" statement:
`src._is_valid AND EXISTS (... dim WHERE bk-join AND dim._valid_to IS NOT NULL
AND dim._is_current = FALSE)` — note it tests for *any* closed version of the
key, not for a version closed by this merge run. -/
def changedInsertPred (cols : List ColumnMeta) (gold : List GoldRow)
    (s : SilverRow) : Bool :=
  s.isValid && gold.any (fun g =>
    bkJoin cols g.vals s.vals && g.validTo.isSome && !g.isCurrent)

/-- The predicate of the "insert completely new records" statement and of the
`new_rows` count: `src._is_valid AND NOT EXISTS (... dim WHERE bk-join)`. -/
def newInsertPred (cols : List ColumnMeta) (gold : List GoldRow)
    (s : SilverRow) : Bool :=
  s.isValid && !(gold.any (fun g => bkJoin cols g.vals s.vals))

/-- State after statement 1 of the incremental branch: close changed records. -/
def stAfterClose (cols : List ColumnMeta) (silver : List SilverRow) (now : Nat)
    (st : GoldState) : GoldState :=
  { st with rows := closeStep cols silver now st.rows }

/-- State after statement 2: insert new versions for keys with a closed
version; the `EXISTS` subquery reads the table as the close statement left it. -/
def stAfterInsertChanged (cols : List ColumnMeta) (silver : List SilverRow)
    (now : Nat) (st : GoldState) : GoldState :=
  let st1 := stAfterClose cols silver now st
  appendRows st1 (silver.filter (changedInsertPred cols st1.rows))

/-- State after statement 3: insert records whose business key is absent from
the table; the `NOT EXISTS` subquery reads the table as statement 2 left it. -/
def stAfterInsertNew (cols : List ColumnMeta) (silver : List SilverRow)
    (now : Nat) (st : GoldState) : GoldState :=
  let st2 := stAfterInsertChanged cols silver now st
  appendRows st2 (silver.filter (newInsertPred cols st2.rows))

/-- The `new_rows` count (run *after* the inserts): valid source rows whose
business key still has no match in the gold table. -/
def newRowsCount (cols : List ColumnMeta) (gold : List GoldRow)
    (silver : List SilverRow) : Nat :=
  (silver.filter (newInsertPred cols gold)).length

/-- The incremental (table-exists) branch of `build_type2_dimension`:
change-count, close, insert-changed, insert-new, then the `new_rows` and
`COUNT(*)` queries, each statement reading the state the previous one left. -/
def mergeIncremental (cols : List ColumnMeta) (silver : List SilverRow)
    (now : Nat) (st : GoldState) : GoldState × MergeResult :=
  let updated := updatedRowsCount cols st.rows silver
  let st3 := stAfterInsertNew cols silver now st
  let nr := newRowsCount cols st3.rows silver
  (st3, { total_rows := st3.rows.length, new_rows := nr,
          updated_rows := updated, changed_rows := updated })

/-- The intermediate states of the incremental branch, one entry per executed
mutation statement (index 0 is the state before the merge): the source opens
no transaction, so a merge failing after its k-th statement leaves the state
at index k observable and committed. -/
def incStates (cols : List ColumnMeta) (silver : List SilverRow) (now : Nat)
    (st : GoldState) : List GoldState :=
  [st, stAfterClose cols silver now st,
   stAfterInsertChanged cols silver now st,
   stAfterInsertNew cols silver now st]

/-- The initial-load (table-absent) branch: create the table (interpolating
each declared type into the `CREATE TABLE`, with no type validation), create
the sequence starting at 1, and insert one open current version per valid
silver row. The returned dictionary has no `changed_rows` key (modelled 0). -/
def mergeInitial (cols : List ColumnMeta) (silver : List SilverRow) :
    GoldState × MergeResult :=
  let st := appendRows
    { tableSchema := cols.map (fun c => (c.name, c.dataType)), rows := [], seq := 1 }
    (silver.filter (fun s => s.isValid))
  (st, { total_rows := st.rows.length, new_rows := st.rows.length,
         updated_rows := 0, changed_rows := 0 })

/-- `build_type2_dimension`: validates the entity/schema identifiers and every
column name, classifies the business-key columns, rejects an entity with no
business key *before* any statement runs, then `CREATE SCHEMA IF NOT EXISTS`
and branches on whether the historized table already exists. On an error the
storage-engine state reached so far is returned unchanged (the raise happens
before any mutation). Declared column types are *not* validated here. -/
def build_type2_dimension (entityName silverSchema goldSchema : String)
    (cols : List ColumnMeta) (silver : List SilverRow) (now : Nat) (db : DB) :
    DB × Except String MergeResult :=
  if !(validateIdentifier entityName && validateIdentifier silverSchema &&
      validateIdentifier goldSchema) then
    (db, .error "invalid identifier")
  else if !(cols.all fun c => validateIdentifier c.name) then
    (db, .error "invalid column name")
  else if (cols.filter (fun c => c.isBusinessKey)).isEmpty then
    (db, .error "Type 2 dimension must have at least one business key column")
  else
    let db1 : DB :=
      { db with schemas :=
          if db.schemas.contains goldSchema then db.schemas
          else db.schemas ++ [goldSchema] }
    match db1.gold with
    | none =>
      let p := mergeInitial cols silver
      ({ db1 with gold := some p.1 }, .ok p.2)
    | some st =>
      let p := mergeIncremental cols silver now st
      ({ db1 with gold := some p.1 }, .ok p.2)

/-! ## Concrete scenarios used by the theorems -/

/-- A minimal historized `customer` entity: business key `customer_id`,
tracked column `email`. -/
def colsCustomer : List ColumnMeta :=
  [ { name := "customer_id", dataType := "INTEGER", isNullable := false,
      isBusinessKey := true, trackHistory := false },
    { name := "email", dataType := "VARCHAR", isNullable := false,
      isBusinessKey := false, trackHistory := true } ]

/-- Typed snapshot: customer 1 with email `a@x`. -/
def silverA : List SilverRow :=
  [ { vals := [some "1", some "a@x"], loadDate := 1,
      rowHash := some (contentHash ["1", "a@x"]), validFrom := 1, isValid := true } ]

/-- The typed record of customer 1 with email `b@x`. -/
def rowB : SilverRow :=
  { vals := [some "1", some "b@x"], loadDate := 2,
    rowHash := some (contentHash ["1", "b@x"]), validFrom := 2, isValid := true }

/-- Typed snapshot: customer 1 with email `b@x` (content changed). -/
def silverB : List SilverRow := [rowB]

/-- Empty storage-engine state: no schemas, no historized table. -/
def db0 : DB := { schemas := [], gold := none }

/-- First merge: initial load of snapshot A. -/
def run1 : DB × Except String MergeResult :=
  build_type2_dimension "customer" "silver" "gold" colsCustomer silverA 1 db0

/-- Second merge: snapshot B (customer 1's email changed). -/
def run2 : DB × Except String MergeResult :=
  build_type2_dimension "customer" "silver" "gold" colsCustomer silverB 2 run1.1

/-- Third merge: snapshot B again — content hashes identical to the
currently-open version. -/
def run3 : DB × Except String MergeResult :=
  build_type2_dimension "customer" "silver" "gold" colsCustomer silverB 3 run2.1

/-- Number of open current versions (`_is_current = TRUE`, `_valid_to IS
NULL`) carried by a given business-key tuple. -/
def openCurrentCount (cols : List ColumnMeta) (bk : List (Option String))
    (st : GoldState) : Nat :=
  (st.rows.filter (fun g =>
    g.isCurrent && g.validTo == none && bkVals cols g.vals == bk)).length

/-! ## Helper lemmas -/

theorem sqlEq_trans {a b c : Option String} (h1 : sqlEq a b = true)
    (h2 : sqlEq b c = true) : sqlEq a c = true := by
  cases a <;> cases b <;> cases c <;> simp_all [sqlEq]

theorem sqlEq_refl_of_isSome {a : Option String} (h : a.isSome = true) :
    sqlEq a a = true := by
  cases a <;> simp_all [sqlEq]

theorem sqlListEq_trans {a b c : List (Option String)}
    (h1 : sqlListEq a b = true) (h2 : sqlListEq b c = true) :
    sqlListEq a c = true := by
  induction a generalizing b c with
  | nil => cases b <;> cases c <;> simp_all [sqlListEq]
  | cons x xs ih =>
    cases b with
    | nil => simp [sqlListEq] at h1
    | cons y ys =>
      cases c with
      | nil => simp [sqlListEq] at h2
      | cons z zs =>
        simp only [sqlListEq, Bool.and_eq_true] at h1 h2 ⊢
        exact ⟨sqlEq_trans h1.1 h2.1, ih h1.2 h2.2⟩

theorem sqlListEq_refl_of_isSome {a : List (Option String)}
    (h : ∀ v ∈ a, v.isSome = true) : sqlListEq a a = true := by
  induction a with
  | nil => rfl
  | cons x xs ih =>
    simp only [sqlListEq, Bool.and_eq_true]
    exact ⟨sqlEq_refl_of_isSome (h x (by simp)),
      ih (fun v hv => h v (by simp [hv]))⟩

theorem bkJoin_trans {cols : List ColumnMeta} {a b c : List (Option String)}
    (h1 : bkJoin cols a b = true) (h2 : bkJoin cols b c = true) :
    bkJoin cols a c = true :=
  sqlListEq_trans h1 h2

theorem bkJoin_refl_of_isSome {cols : List ColumnMeta}
    {a : List (Option String)}
    (h : ∀ v ∈ bkVals cols a, v.isSome = true) : bkJoin cols a a = true :=
  sqlListEq_refl_of_isSome h

theorem appendRows_rows_length (st : GoldState) (l : List SilverRow) :
    (appendRows st l).rows.length = st.rows.length + l.length := by
  induction l generalizing st with
  | nil => simp [appendRows]
  | cons s rest ih =>
    simp only [appendRows]
    rw [ih]
    simp only [List.length_append, List.length_cons, List.length_nil,
      List.length_singleton]
    omega

theorem appendRows_seq (st : GoldState) (l : List SilverRow) :
    (appendRows st l).seq = st.seq + l.length := by
  induction l generalizing st with
  | nil => simp [appendRows]
  | cons s rest ih =>
    simp only [appendRows]
    rw [ih]
    simp only [List.length_cons]
    omega

theorem appendRows_tableSchema (st : GoldState) (l : List SilverRow) :
    (appendRows st l).tableSchema = st.tableSchema := by
  induction l generalizing st with
  | nil => rfl
  | cons s rest ih =>
    simp only [appendRows]
    rw [ih]

theorem mem_appendRows_of_mem_rows {st : GoldState} {l : List SilverRow}
    {g : GoldRow} (h : g ∈ st.rows) : g ∈ (appendRows st l).rows := by
  induction l generalizing st with
  | nil => exact h
  | cons s rest ih => exact ih (by simp [h])

theorem mem_appendRows_of_mem_src {st : GoldState} {l : List SilverRow}
    {s : SilverRow} (h : s ∈ l) :
    ∃ k, newVersion s k ∈ (appendRows st l).rows := by
  induction l generalizing st with
  | nil => cases h
  | cons x rest ih =>
    cases h with
    | head =>
      refine ⟨st.seq, ?_⟩
      simp only [appendRows]
      exact mem_appendRows_of_mem_rows
        (List.mem_append_right _ (List.mem_singleton.mpr rfl))
    | tail _ h2 =>
      simp only [appendRows]
      exact ih h2

theorem appendRows_mem_cases {st : GoldState} {l : List SilverRow}
    {r : GoldRow} (h : r ∈ (appendRows st l).rows) :
    r ∈ st.rows ∨ ∃ s ∈ l, ∃ k, r = newVersion s k := by
  induction l generalizing st with
  | nil => exact .inl h
  | cons x rest ih =>
    rcases ih h with h2 | ⟨s, hs, k, rfl⟩
    · rcases List.mem_append.1 h2 with h3 | h4
      · exact .inl h3
      · simp only [List.mem_singleton] at h4
        exact .inr ⟨x, by simp, st.seq, h4⟩
    · exact .inr ⟨s, by simp [hs], k, rfl⟩

theorem closeStep_length (cols : List ColumnMeta) (silver : List SilverRow)
    (now : Nat) (gold : List GoldRow) :
    (closeStep cols silver now gold).length = gold.length :=
  List.length_map _ _

theorem mem_closeStep {cols : List ColumnMeta} {silver : List SilverRow}
    {now : Nat} {gold : List GoldRow} {r : GoldRow}
    (h : r ∈ closeStep cols silver now gold) :
    ∃ g ∈ gold, r.vals = g.vals ∧ r.key = g.key := by
  simp only [closeStep, List.mem_map] at h
  obtain ⟨g, hg, hr⟩ := h
  refine ⟨g, hg, ?_⟩
  by_cases hc : srcChanged cols silver g = true
  · rw [if_pos hc] at hr
    subst hr
    exact ⟨rfl, rfl⟩
  · rw [if_neg hc] at hr
    subst hr
    exact ⟨rfl, rfl⟩

/-! ## Further concrete inputs -/

/-- The open current dimension version of customer 1 with email `a@x`. -/
def goldRowA : GoldRow :=
  { key := 1, vals := [some "1", some "a@x"], validFrom := 1,
    validTo := none, isCurrent := true, loadDate := 1,
    rowHash := some "1|a@x" }

/-- The gold state produced by the initial load of snapshot A (one open
current version of customer 1, content hash of `a@x`). -/
def stOne : GoldState :=
  { tableSchema := [("customer_id", "INTEGER"), ("email", "VARCHAR")],
    rows := [goldRowA],
    seq := 2 }

/-- A PRESENT historized state holding a different member (business key 2). -/
def stOtherMember : GoldState :=
  { tableSchema := [("customer_id", "INTEGER"), ("email", "VARCHAR")],
    rows := [{ key := 1, vals := [some "2", some "z@x"], validFrom := 0,
               validTo := none, isCurrent := true, loadDate := 0,
               rowHash := some "2|z@x" }],
    seq := 2 }

/-- An entity with columns but no business key. -/
def colsNoBk : List ColumnMeta :=
  [ { name := "customer_name", dataType := "VARCHAR", isNullable := false,
      isBusinessKey := false, trackHistory := true } ]

/-- A single non-nullable INTEGER column. -/
def colsNotNullInt : List ColumnMeta :=
  [ { name := "x", dataType := "INTEGER", isNullable := false,
      isBusinessKey := false, trackHistory := false } ]

/-- A nullable INTEGER column named `x`. -/
def colX : ColumnMeta :=
  { name := "x", dataType := "INTEGER", isNullable := true,
    isBusinessKey := false, trackHistory := false }

/-- A single nullable INTEGER column. -/
def colsNullableInt : List ColumnMeta := [colX]

/-- A landing row whose value cannot be coerced to INTEGER. -/
def bronzeBad : List BronzeRow :=
  [ { vals := [some "abc"], loadDate := 1, rowHash := some "abc" } ]

/-- A declared column type carrying SQL injection. -/
def badType : String := "INTEGER); DROP TABLE t; --"

/-- An entity whose single (business-key) column declares `badType`. -/
def colsBadType : List ColumnMeta :=
  [ { name := "id", dataType := badType, isNullable := false,
      isBusinessKey := true, trackHistory := false } ]

/-- Two valid typed records sharing business key 1 with different content. -/
def silverDup : List SilverRow :=
  [ { vals := [some "1", some "old"], loadDate := 1, rowHash := some "1|old",
      validFrom := 1, isValid := true },
    { vals := [some "1", some "new"], loadDate := 2, rowHash := some "1|new",
      validFrom := 2, isValid := true } ]

/-- A historized table that exists but holds no rows (PRESENT state). -/
def stEmptyPresent : GoldState :=
  { tableSchema := [("customer_id", "INTEGER"), ("email", "VARCHAR")],
    rows := [], seq := 1 }

/-- A nullable business-key column. -/
def colsNullBk : List ColumnMeta :=
  [ { name := "k", dataType := "INTEGER", isNullable := true,
      isBusinessKey := true, trackHistory := false } ]

/-- A PRESENT historized state with one member, key value 9. -/
def stPresentOne : GoldState :=
  { tableSchema := [("k", "INTEGER")],
    rows := [{ key := 1, vals := [some "9"], validFrom := 0, validTo := none,
               isCurrent := true, loadDate := 0, rowHash := some "9" }],
    seq := 2 }

/-- A valid typed record whose business-key value is NULL. -/
def silverNullKey : List SilverRow :=
  [ { vals := [none], loadDate := 5, rowHash := some "h", validFrom := 5,
      isValid := true } ]

/-- A submitted frame whose columns come in the order `b, a`, the reverse of
the catalog registration order `a, b`. -/
def dfReordered : DataFrame := { cols := ["b", "a"], rows := [["2", "1"]] }

/-! ## Claim theorems -/

/-- C1 (code bug): re-running the merge with a typed snapshot whose content
hashes equal the currently-open versions reports `changed_rows = 0` and
`new_rows = 0`, yet it still inserts a row: the third merge of the
A-then-B-then-B trace grows the historized table from 2 to 3 rows because the
"insert new versions of changed records" statement fires for every business
key that has *any* previously-closed version, not only for keys closed in
this run. The table content is therefore not identical before and after. -/
theorem merge_second_identical_snapshot_still_inserts :
    run3.2 = .ok { total_rows := 3, new_rows := 0, updated_rows := 0,
                   changed_rows := 0 } ∧
    (run2.1.gold.map fun st => st.rows.length) = some 2 ∧
    (run3.1.gold.map fun st => st.rows.length) = some 3 := by
  refine ⟨rfl, rfl, rfl⟩

/-- C2 (code bug): after the reachable trace initial-load A, merge B (closes
the A version), merge B again, the historized table holds **two** records
with `is_current = true` and `valid_to = null` for the business-key tuple
`(1)`, violating the single-current invariant. -/
theorem single_current_invariant_violated :
    (run3.1.gold.map (openCurrentCount colsCustomer [some "1"])) = some 2 := by
  rfl

/-- C3 counterexample: the intermediate state after the close statement (no
transaction wraps the statements, so a failure there leaves it committed)
differs both from the pre-merge state and from the final state — a partial
close with no inserted replacement is observable, refuting the all-or-nothing
claim. -/
theorem merge_prefix_state_differs_from_before :
    (incStates colsCustomer silverB 2 stOne)[1]? ≠ some stOne ∧
    (incStates colsCustomer silverB 2 stOne)[1]? ≠
      (incStates colsCustomer silverB 2 stOne)[3]? := by
  refine ⟨by decide, by decide⟩

/-- C5 (code bug): the silver processor hard-fails instead of tagging. With a
non-nullable INTEGER column and the uncoercible value `"abc"`, `TRY_CAST`
yields NULL and the insert violates the generated `NOT NULL` constraint, so
the whole `process` call errors and no row is retained. With the same value
in a nullable column the call succeeds but the row keeps
`_is_valid = true` — the flag is hardcoded `TRUE AS _is_valid`, so a failed
coercion is never marked `validity = false`. -/
theorem silver_validation_hard_fails_and_never_tags :
    process_silver_entity "customer" "bronze" "silver" colsNotNullInt
        bronzeBad 1 = .error "NOT NULL constraint violated" ∧
    process_silver_entity "customer" "bronze" "silver" colsNullableInt
        bronzeBad 1 =
      .ok { rows := [{ vals := [none], loadDate := 1, rowHash := some "abc",
                       validFrom := 1, isValid := true }],
            totalRows := 1, validRows := 1, invalidRows := 0 } := by
  refine ⟨rfl, rfl⟩

/-- C6 counterexample: `build_type2_dimension` interpolates a declared column
type that fails the type grammar straight into its `CREATE TABLE` — the build
succeeds and the injection-carrying type string lands in the generated
table schema unvalidated. -/
theorem historized_build_interpolates_unvalidated_type :
    build_type2_dimension "customer" "silver" "gold" colsBadType [] 0 db0 =
      ({ schemas := ["gold"],
         gold := some { tableSchema := [("id", badType)], rows := [],
                        seq := 1 } },
       .ok { total_rows := 0, new_rows := 0, updated_rows := 0,
             changed_rows := 0 }) ∧
    isValidTypeDecl badType = false := by
  refine ⟨rfl, by decide⟩

/-- C7 counterexample: with two valid typed records sharing business key 1
(content hashes `1|old` and `1|new`) and the key absent from the historized
table, the merge materializes **both** records as open current versions — the
earlier-ingested duplicate is inserted too, refuting latest-timestamp-wins. -/
theorem earlier_duplicate_is_materialized :
    ((mergeIncremental colsCustomer silverDup 3 stEmptyPresent).1.rows.filter
       (fun g => g.rowHash == some "1|old" && g.isCurrent)).length = 1 ∧
    (mergeIncremental colsCustomer silverDup 3 stEmptyPresent).1.rows.length
      = 2 := by
  refine ⟨rfl, rfl⟩

/-- C9 counterexample: for a frame submitted with columns in the order
`b, a` (the reverse of the catalog registration order `a, b`) and the row
`b = "2", a = "1"`, the stored content-hash preimage is `"2|1"` — the values
in the frame's own column order — while the catalog-column-order hash the
claim prescribes is `"1|2"`. -/
theorem bronze_hash_follows_frame_order_not_catalog_order :
    load_bronze_entity "customer" "bronze" dfReordered 0 =
      .ok [{ vals := [some "2", some "1"], loadDate := 0,
             rowHash := some "2|1" }] ∧
    catalogOrderHash ["a", "b"] dfReordered ["2", "1"] = "1|2" ∧
    ("2|1" : String) ≠ "1|2" := by
  refine ⟨rfl, rfl, by decide⟩

/-- C10 counterexample: a valid typed record whose business-key value is NULL
never satisfies the SQL join (`NULL = NULL` is not true), so it is reinserted
by the new-records statement and *still* counted by the `new_rows` query that
runs afterwards: the merge returns `new_rows = 1`, not 0. -/
theorem new_rows_nonzero_on_null_business_key :
    (mergeIncremental colsNullBk silverNullKey 5 stPresentOne).2.new_rows
      = 1 := by
  rfl

/-- C4: for a historized entity whose registered columns declare no business
key, the merge call fails with the missing-business-key error and makes no
state change at all — the raise precedes the schema creation, the
`CREATE TABLE`, the sequence creation and every insert, so the returned
storage-engine state is exactly the input state. -/
theorem missing_business_key_rejected (en ss gs : String)
    (cols : List ColumnMeta) (silver : List SilverRow) (now : Nat) (db : DB)
    (hid : (validateIdentifier en && validateIdentifier ss &&
      validateIdentifier gs) = true)
    (hcols : (cols.all fun c => validateIdentifier c.name) = true)
    (hbk : (cols.filter fun c => c.isBusinessKey).isEmpty = true) :
    build_type2_dimension en ss gs cols silver now db =
      (db, .error
        "Type 2 dimension must have at least one business key column") := by
  simp [build_type2_dimension, hid, hcols, hbk]

/-- Witness for C4: a concrete historized entity with columns but no business
key is rejected on its first merge, leaving the empty database untouched. -/
theorem missing_business_key_rejected_witness :
    build_type2_dimension "customer" "silver" "gold" colsNoBk [] 0 db0 =
      (db0, .error
        "Type 2 dimension must have at least one business key column") :=
  missing_business_key_rejected "customer" "silver" "gold" colsNoBk [] 0 db0
    (by decide) (by decide) (by decide)

/-- C8: a valid typed record whose business-key tuple has no match in the
historized table is materialized by the merge: afterwards the table contains
a dimension version record carrying that business-key tuple with
`is_current = true` and `valid_to = null`. -/
theorem new_member_present_after_merge (cols : List ColumnMeta)
    (silver : List SilverRow) (now : Nat) (st : GoldState) (s : SilverRow)
    (hs : s ∈ silver) (hv : s.isValid = true)
    (habs : ∀ g ∈ st.rows, bkJoin cols g.vals s.vals = false) :
    ∃ r ∈ (mergeIncremental cols silver now st).1.rows,
      bkVals cols r.vals = bkVals cols s.vals ∧ r.isCurrent = true ∧
        r.validTo = none := by
  have habs1 : ∀ r ∈ (stAfterClose cols silver now st).rows,
      bkJoin cols r.vals s.vals = false := by
    intro r hr
    obtain ⟨g, hg, hvals, _⟩ := mem_closeStep hr
    rw [hvals]
    exact habs g hg
  have habs2 : ∀ r ∈ (stAfterInsertChanged cols silver now st).rows,
      bkJoin cols r.vals s.vals = false := by
    intro r hr
    rcases appendRows_mem_cases hr with h1 | ⟨s2, hs2, k, rfl⟩
    · exact habs1 r h1
    · rcases List.mem_filter.mp hs2 with ⟨_, hpred⟩
      simp only [changedInsertPred, Bool.and_eq_true, List.any_eq_true]
        at hpred
      obtain ⟨_, g, hg, hj⟩ := hpred
      cases hh : bkJoin cols (newVersion s2 k).vals s.vals with
      | false => rfl
      | true =>
        have : bkJoin cols g.vals s.vals = true := bkJoin_trans hj.1.1 hh
        rw [habs1 g hg] at this
        exact absurd this (by simp)
  have hpred : newInsertPred cols
      (stAfterInsertChanged cols silver now st).rows s = true := by
    have hany : ((stAfterInsertChanged cols silver now st).rows.any
        (fun g => bkJoin cols g.vals s.vals)) = false := by
      rw [List.any_eq_false]
      intro g hg
      rw [habs2 g hg]
      simp
    simp [newInsertPred, hv, hany]
  obtain ⟨k, hk⟩ := @mem_appendRows_of_mem_src
    (stAfterInsertChanged cols silver now st) _ _
    (List.mem_filter.mpr ⟨hs, hpred⟩)
  exact ⟨newVersion s k, hk, rfl, rfl, rfl⟩

/-- Witness for C8: merging snapshot B into a table that only holds business
key 2 materializes customer 1 as an open current version. -/
theorem new_member_present_after_merge_witness :
    ∃ r ∈ (mergeIncremental colsCustomer silverB 7 stOtherMember).1.rows,
      bkVals colsCustomer r.vals = bkVals colsCustomer rowB.vals ∧
        r.isCurrent = true ∧ r.validTo = none :=
  new_member_present_after_merge colsCustomer silverB 7 stOtherMember rowB
    (by decide) (by decide) (by decide)

/-- C3 amended: the change/close/insert statements run as separate
auto-committed statements with no enclosing transaction, so a merge failing
right after the close statement leaves a partial state observable: every
current row matched by a changed valid source row is closed (`valid_to` set
to the processing time, `is_current = false`) while no replacement version
has been inserted yet (every surrogate key still lies below the sequence's
next value). -/
theorem merge_failure_after_close_leaves_partial_close
    (cols : List ColumnMeta) (silver : List SilverRow) (now : Nat)
    (st : GoldState) (g : GoldRow) (hg : g ∈ st.rows)
    (hch : srcChanged cols silver g = true)
    (hseq : ∀ r ∈ st.rows, r.key < st.seq) :
    ((incStates cols silver now st)[1]? =
      some (stAfterClose cols silver now st)) ∧
    ({ g with validTo := some now, isCurrent := false } ∈
      (stAfterClose cols silver now st).rows) ∧
    (∀ r ∈ (stAfterClose cols silver now st).rows, r.key < st.seq) := by
  refine ⟨rfl, ?_, ?_⟩
  · have h1 : { g with validTo := some now, isCurrent := false } ∈
        closeStep cols silver now st.rows := by
      simp only [closeStep, List.mem_map]
      exact ⟨g, hg, by rw [if_pos hch]⟩
    exact h1
  · intro r hr
    obtain ⟨g2, hg2, _, hkey⟩ := mem_closeStep hr
    rw [hkey]
    exact hseq g2 hg2

/-- Witness for the C3 amended theorem: failing after the close statement of
the changed-snapshot merge leaves customer 1's version closed with no
replacement inserted. -/
theorem merge_failure_after_close_leaves_partial_close_witness :
    ((incStates colsCustomer silverB 2 stOne)[1]? =
      some (stAfterClose colsCustomer silverB 2 stOne)) ∧
    ({ goldRowA with validTo := some 2, isCurrent := false } ∈
      (stAfterClose colsCustomer silverB 2 stOne).rows) ∧
    (∀ r ∈ (stAfterClose colsCustomer silverB 2 stOne).rows,
      r.key < stOne.seq) :=
  merge_failure_after_close_leaves_partial_close colsCustomer silverB 2 stOne
    goldRowA (by decide) (by decide) (by decide)

/-- C10 amended: the `new_rows` count runs after the new-member insertion, so
whenever every valid typed record carries only non-NULL business-key values,
every valid record has a join partner in the final table and the returned
`new_rows` is 0 for every input — the count is vacuous. (A NULL business-key
value escapes this, per the counterexample, because NULL never joins.) -/
theorem new_rows_zero_when_business_keys_nonnull (cols : List ColumnMeta)
    (silver : List SilverRow) (now : Nat) (st : GoldState)
    (hnn : ∀ s ∈ silver, s.isValid = true →
      ∀ v ∈ bkVals cols s.vals, v.isSome = true) :
    (mergeIncremental cols silver now st).2.new_rows = 0 := by
  have hall : ∀ s ∈ silver,
      newInsertPred cols (stAfterInsertNew cols silver now st).rows s
        = false := by
    intro s hs
    cases hv : s.isValid with
    | false => simp [newInsertPred, hv]
    | true =>
      have hjoin : ∃ g ∈ (stAfterInsertNew cols silver now st).rows,
          bkJoin cols g.vals s.vals = true := by
        by_cases hex : ∃ g ∈ (stAfterInsertChanged cols silver now st).rows,
            bkJoin cols g.vals s.vals = true
        · obtain ⟨g, hg, hj⟩ := hex
          exact ⟨g, mem_appendRows_of_mem_rows hg, hj⟩
        · have hany : ((stAfterInsertChanged cols silver now st).rows.any
              (fun g => bkJoin cols g.vals s.vals)) = false := by
            rw [List.any_eq_false]
            intro g hg
            intro hcontra
            exact hex ⟨g, hg, hcontra⟩
          have hpred : newInsertPred cols
              (stAfterInsertChanged cols silver now st).rows s = true := by
            simp [newInsertPred, hv, hany]
          obtain ⟨k, hk⟩ := @mem_appendRows_of_mem_src
            (stAfterInsertChanged cols silver now st) _ _
            (List.mem_filter.mpr ⟨hs, hpred⟩)
          exact ⟨newVersion s k, hk, bkJoin_refl_of_isSome (hnn s hs hv)⟩
      obtain ⟨g, hg, hj⟩ := hjoin
      have hany : ((stAfterInsertNew cols silver now st).rows.any
          (fun g => bkJoin cols g.vals s.vals)) = true :=
        List.any_eq_true.mpr ⟨g, hg, hj⟩
      simp [newInsertPred, hv, hany]
  have hfilter : silver.filter
      (newInsertPred cols (stAfterInsertNew cols silver now st).rows) = [] :=
    List.filter_eq_nil_iff.mpr (fun s hs => by simp [hall s hs])
  simp [mergeIncremental, newRowsCount, hfilter]

/-- Witness for the C10 amended theorem: the second identical merge of the
customer scenario (all business-key values non-NULL) reports `new_rows = 0`. -/
theorem new_rows_zero_when_business_keys_nonnull_witness :
    (mergeIncremental colsCustomer silverB 3 stOne).2.new_rows = 0 :=
  new_rows_zero_when_business_keys_nonnull colsCustomer silverB 3 stOne
    (by decide)

/-- C7 amended: the merge applies no duplicate tie-break at all — every valid
typed record satisfying the changed-version insert predicate and every one
satisfying the new-records predicate is materialized as its own row, so the
historized table grows by exactly one row per qualifying record and
duplicates sharing a business-key tuple are all inserted, regardless of their
ingest timestamps. -/
theorem merge_inserts_one_row_per_qualifying_record (cols : List ColumnMeta)
    (silver : List SilverRow) (now : Nat) (st : GoldState) :
    (mergeIncremental cols silver now st).1.rows.length =
      st.rows.length
        + (silver.filter (changedInsertPred cols
            (stAfterClose cols silver now st).rows)).length
        + (silver.filter (newInsertPred cols
            (stAfterInsertChanged cols silver now st).rows)).length := by
  simp only [mergeIncremental, stAfterInsertNew, stAfterInsertChanged,
    stAfterClose, appendRows_rows_length, closeStep_length]

/-- C6 amended: every caller-supplied identifier (entity name, schema names,
column names) is validated before the load, process and
historized-materialize operations build any statement — but against the
source's `re.match` check, whose accepted language is the claimed
`[A-Za-z_][A-Za-z0-9_]*` / length-63 rule *optionally followed by one
trailing newline* (strictly larger than the claimed pattern: `"abc\n"` is
accepted, fails the claimed rule, and is interpolated by a successful load).
The typed-tier processor additionally validates every declared column type
against the word-plus-numeric-parameters grammar, while the historized
materializer performs no type validation (per the counterexample, it
interpolates unvalidated declared types into its `CREATE TABLE`). -/
theorem identifiers_always_validated_types_only_in_silver :
    (∀ en bs df ld rows, load_bronze_entity en bs df ld = .ok rows →
      validateIdentifier en = true ∧ validateIdentifier bs = true) ∧
    (∀ en bs ss cols bronze now r,
      process_silver_entity en bs ss cols bronze now = .ok r →
      validateIdentifier en = true ∧ validateIdentifier bs = true ∧
        validateIdentifier ss = true ∧
        ∀ c ∈ cols, validateIdentifier c.name = true ∧
          isValidTypeDecl c.dataType = true) ∧
    (∀ en ss gs cols silver now db r,
      (build_type2_dimension en ss gs cols silver now db).2 = .ok r →
      validateIdentifier en = true ∧ validateIdentifier ss = true ∧
        validateIdentifier gs = true ∧
        ∀ c ∈ cols, validateIdentifier c.name = true) ∧
    (validateIdentifier "abc\n" = true ∧
      claimedIdentCheck "abc\n" = false ∧
      load_bronze_entity "customer" "abc\n"
          { cols := ["a"], rows := [["1"]] } 0 =
        .ok [{ vals := [some "1"], loadDate := 0, rowHash := some "1" }]) := by
  refine ⟨?_, ?_, ?_, by decide, by decide, rfl⟩
  · intro en bs df ld rows h
    cases hv : (validateIdentifier en && validateIdentifier bs) with
    | false => simp [load_bronze_entity, hv] at h
    | true =>
      rw [Bool.and_eq_true] at hv
      exact hv
  · intro en bs ss cols bronze now r h
    cases hv : (validateIdentifier en && validateIdentifier bs &&
        validateIdentifier ss) with
    | false => simp [process_silver_entity, hv] at h
    | true =>
      cases hc : (cols.all fun c =>
          validateIdentifier c.name && isValidTypeDecl c.dataType) with
      | false =>
        cases hE : cols.isEmpty <;>
          simp [process_silver_entity, hv, hc, hE] at h
      | true =>
        rw [Bool.and_eq_true, Bool.and_eq_true] at hv
        refine ⟨hv.1.1, hv.1.2, hv.2, ?_⟩
        intro c hcmem
        have := (List.all_eq_true.mp hc) c hcmem
        rw [Bool.and_eq_true] at this
        exact this
  · intro en ss gs cols silver now db r h
    cases hv : (validateIdentifier en && validateIdentifier ss &&
        validateIdentifier gs) with
    | false => simp [build_type2_dimension, hv] at h
    | true =>
      cases hc : (cols.all fun c => validateIdentifier c.name) with
      | false => simp [build_type2_dimension, hv, hc] at h
      | true =>
        rw [Bool.and_eq_true, Bool.and_eq_true] at hv
        refine ⟨hv.1.1, hv.1.2, hv.2, ?_⟩
        intro c hcmem
        exact (List.all_eq_true.mp hc) c hcmem

/-- Witness for the C6 amended theorem, applied at a successful silver run:
the identifiers of the nullable-column scenario were indeed validated, and so
was its declared type. -/
theorem identifiers_always_validated_types_only_in_silver_witness :
    validateIdentifier "customer" = true ∧
      isValidTypeDecl "INTEGER" = true := by
  have h := identifiers_always_validated_types_only_in_silver.2.1 "customer"
    "bronze" "silver" colsNullableInt bronzeBad 1
    { rows := [{ vals := [none], loadDate := 1, rowHash := some "abc",
                 validFrom := 1, isValid := true }],
      totalRows := 1, validRows := 1, invalidRows := 0 } rfl
  exact ⟨h.1, (h.2.2.2 colX (by decide)).2⟩

theorem filterMap_lookup_zip (ks : List String) :
    ∀ vs : List String, ks.Nodup → vs.length = ks.length →
      ks.filterMap (fun c => (ks.zip vs).lookup c) = vs := by
  induction ks with
  | nil =>
    intro vs _ hlen
    cases vs with
    | nil => rfl
    | cons v vt => simp at hlen
  | cons k kt ih =>
    intro vs hnd hlen
    cases vs with
    | nil => simp at hlen
    | cons v vt =>
      have hk : k ∉ kt := (List.nodup_cons.mp hnd).1
      have hnd2 : kt.Nodup := (List.nodup_cons.mp hnd).2
      have hlen2 : vt.length = kt.length := by simpa using hlen
      have hhead : (((k, v) :: kt.zip vt).lookup k) = some v := by
        simp [List.lookup]
      have htail : kt.filterMap (fun c => (((k, v) :: kt.zip vt)).lookup c)
          = kt.filterMap (fun c => (kt.zip vt).lookup c) := by
        apply List.filterMap_congr
        intro c hc
        have hne : (c == k) = false := by
          rw [beq_eq_false_iff_ne]
          intro heq
          exact hk (heq ▸ hc)
        simp [List.lookup, hne]
      calc (k :: kt).filterMap (fun c => (((k :: kt).zip (v :: vt))).lookup c)
          = v :: kt.filterMap (fun c => (((k, v) :: kt.zip vt)).lookup c) := by
            simp only [List.zip_cons_cons, List.filterMap_cons, hhead]
        _ = v :: kt.filterMap (fun c => (kt.zip vt).lookup c) := by
            rw [htail]
        _ = v :: vt := by rw [ih vt hnd2 hlen2]

/-- C9 amended: the stored content hash of a landing row is the hash of the
row's original values joined with the fixed separator in the *submitted
frame's own column order* (the audit columns, appended afterwards, are
excluded from the hashed input); it coincides with the catalog-column-order
hash exactly when the frame's columns come in catalog registration order. -/
theorem bronze_hash_is_frame_order_hash :
    (∀ en bs df ld rows, load_bronze_entity en bs df ld = .ok rows →
      rows = df.rows.map (fun r =>
        { vals := r.map some, loadDate := ld,
          rowHash := some (contentHash r) : BronzeRow })) ∧
    (∀ (catalogCols : List String) (df : DataFrame) (row : List String),
      df.cols = catalogCols → catalogCols.Nodup →
      row.length = catalogCols.length →
      catalogOrderHash catalogCols df row = contentHash row) := by
  constructor
  · intro en bs df ld rows h
    cases hv : (validateIdentifier en && validateIdentifier bs) with
    | false => simp [load_bronze_entity, hv] at h
    | true =>
      simp [load_bronze_entity, hv] at h
      exact h.symm
  · intro catalogCols df row hcols hnd hlen
    subst hcols
    unfold catalogOrderHash
    rw [filterMap_lookup_zip df.cols row hnd hlen]

/-- Witness for the C9 amended theorem: for a frame whose columns are in
catalog order, the catalog-order hash is the plain concatenation hash. -/
theorem bronze_hash_is_frame_order_hash_witness :
    catalogOrderHash ["a", "b"] { cols := ["a", "b"], rows := [["1", "2"]] }
      ["1", "2"] = contentHash ["1", "2"] :=
  bronze_hash_is_frame_order_hash.2 ["a", "b"]
    { cols := ["a", "b"], rows := [["1", "2"]] } ["1", "2"] rfl (by decide)
    (by decide)

end TransmuteDb
